import Mathlib

/-!
Verification of the FPL transfer suggester data pipeline, a shallow embedding of
`src/data_pipeline/build_feature_table.py` and `src/data_pipeline/phase2_rank_players.py`.

Modelling conventions:
- Python floats are modelled as exact rationals (ℚ); numeric literals such as 0.6
  denote the corresponding exact rational.
- Nullable database columns and NaN/NaT values are modelled as Option; `fillna`
  becomes `Option.getD`.
- Kickoff timestamps (`pd.to_datetime(..., errors="coerce")`) are modelled as
  `Option ℤ` (epoch seconds; `none` is NaT / unparsable).
- `math.sqrt` is irrational-valued, so it is kept abstract: the functions that use
  it take a `sqrtQ : ℚ → ℚ` parameter.
- Python's stable sorts (`list.sort`, `DataFrame.sort_values(kind="mergesort")`)
  are modelled with the stable `List.insertionSort` over the same lexicographic keys.
- Python string primitives (`strip`, `upper`, `lower`, `endswith`, string
  comparison) are modelled on the underlying character lists.
-/

namespace FPL

/-- Models Python `str.strip()`: drop leading and trailing whitespace. -/
def pyStrip (s : String) : String :=
  ⟨((s.data.dropWhile Char.isWhitespace).reverse.dropWhile Char.isWhitespace).reverse⟩

/-- Models Python `str.upper()` on the character list. -/
def pyUpper (s : String) : String := ⟨s.data.map Char.toUpper⟩

/-- Models Python `str.lower()` on the character list. -/
def pyLower (s : String) : String := ⟨s.data.map Char.toLower⟩

/-- Models Python `str.endswith(suffix)` on the character lists. -/
def pyEndsWith (s suffix : String) : Bool := suffix.data.isSuffixOf s.data

/-! Phase 2 ranking (`phase2_rank_players.py`). -/

/-- One input row of the phase-1 CSV (`read_phase1_rows`). Numeric columns carry
the rational value the CSV string parses to, or `none` when unparsable, so that
`parse_float`'s failure branch is representable. -/
structure Phase1Row where
  player : String
  team : String
  position : String
  price : Option ℚ
  next_opponent : String
  minutes_avg : Option ℚ
  xg90 : Option ℚ
  xa90 : Option ℚ
deriving DecidableEq

/-- Models `parse_float`: `float(value)` with `TypeError`/`ValueError` mapped to 0.0. -/
def parse_float (v : Option ℚ) : ℚ := v.getD 0

/-- Models `clamp(value, low, high) = max(low, min(value, high))`. -/
def clamp (value low high : ℚ) : ℚ := max low (min value high)

/-- Models `parse_fixture_home`: 1 if the stripped annotation ends with "(H)" else 0. -/
def parse_fixture_home (next_opponent : String) : ℤ :=
  if pyEndsWith (pyStrip next_opponent) "(H)" then 1 else 0

/-- Models `minmax_normalize`: empty input gives `[]`; an all-equal group maps to
0.5 everywhere; otherwise each value maps to `(v - min) / (max - min)`. -/
def minmax_normalize (values : List ℚ) : List ℚ :=
  match values with
  | [] => []
  | v :: vs =>
    let min_v := vs.foldl min v
    let max_v := vs.foldl max v
    if max_v = min_v then (v :: vs).map fun _ => (0.5 : ℚ)
    else (v :: vs).map fun x => (x - min_v) / (max_v - min_v)

/-- Models Python's banker's rounding `round(x)` on an exact rational. -/
def round_half_even (x : ℚ) : ℤ :=
  let f := ⌊x⌋
  let r := x - f
  if r < 1 / 2 then f
  else if 1 / 2 < r then f + 1
  else if f % 2 = 0 then f else f + 1

/-- Models Python `round(x, 6)`. -/
def round_to_6 (x : ℚ) : ℚ := (round_half_even (x * 1000000) : ℚ) / 1000000

/-- Models `compute_weighted_score`: the weighted blend of the normalized signals,
rounded to six decimal places (`round(score, 6)`). -/
def compute_weighted_score (attack_norm minutes_norm value_norm fixture_norm
    w_attack w_minutes w_value w_fixture : ℚ) : ℚ :=
  round_to_6 (w_attack * attack_norm + w_minutes * minutes_norm
    + w_value * value_norm + w_fixture * fixture_norm)

/-- One ranking candidate (`@dataclass Candidate`). -/
structure Candidate where
  player : String
  team : String
  position : String
  price : ℚ
  next_opponent : String
  minutes_avg : ℚ
  xg90 : ℚ
  xa90 : ℚ
  attack_raw : ℚ
  minutes_raw : ℚ
  value_raw : ℚ
  fixture_home : ℤ
  attack_norm : ℚ := 0
  minutes_norm : ℚ := 0
  value_norm : ℚ := 0
  score : ℚ := 0
  rank_position : ℤ := 0
deriving DecidableEq

/-- Models one iteration of the `build_candidates` loop: `none` on the three
`continue` filters, otherwise the constructed candidate. -/
def candidate_of_row (positions : List String) (min_minutes_avg : ℚ)
    (row : Phase1Row) : Option Candidate :=
  let position := pyUpper (pyStrip row.position)
  if positions.contains position then
    let minutes_avg := parse_float row.minutes_avg
    let xg90 := parse_float row.xg90
    let xa90 := parse_float row.xa90
    if minutes_avg < min_minutes_avg then none
    else if xg90 + xa90 ≤ 0 then none
    else
      let price := parse_float row.price
      let attack_raw := xg90 + 0.7 * xa90
      let minutes_raw := clamp (minutes_avg / 90) 0 1
      let value_raw := if 0 < price then attack_raw / price else 0
      some { player := pyStrip row.player, team := pyStrip row.team,
             position := position, price := price,
             next_opponent := pyStrip row.next_opponent,
             minutes_avg := minutes_avg, xg90 := xg90, xa90 := xa90,
             attack_raw := attack_raw, minutes_raw := minutes_raw,
             value_raw := value_raw,
             fixture_home := parse_fixture_home row.next_opponent }
  else none

/-- Models `build_candidates`: the loop with `continue` is a `filterMap`. -/
def build_candidates (rows : List Phase1Row) (positions : List String)
    (min_minutes_avg : ℚ) : List Candidate :=
  rows.filterMap (candidate_of_row positions min_minutes_avg)

/-- Sets the three normalized signals of one position group
(the per-group body of `normalize_by_position`). -/
def set_norms (group : List Candidate) : List Candidate :=
  let attack_norms := minmax_normalize (group.map (·.attack_raw))
  let minutes_norms := minmax_normalize (group.map (·.minutes_raw))
  let value_norms := minmax_normalize (group.map (·.value_raw))
  (group.zip (attack_norms.zip (minutes_norms.zip value_norms))).map
    fun ca =>
      { ca.1 with attack_norm := ca.2.1, minutes_norm := ca.2.2.1, value_norm := ca.2.2.2 }

/-- Models `normalize_by_position`. The Python version updates candidates in
place; since `rank_candidates` immediately regroups by position and within-group
order is preserved, re-emitting the groups in position order is behaviourally
equivalent for the pipeline. -/
def normalize_by_position (candidates : List Candidate)
    (positions : List String) : List Candidate :=
  positions.flatMap fun pos => set_norms (candidates.filter (·.position == pos))

/-- Models the scoring pass at the top of `rank_candidates`: every candidate's
`score` is set from its normalized signals and home-fixture flag. -/
def score_candidates (candidates : List Candidate)
    (w_attack w_minutes w_value w_fixture : ℚ) : List Candidate :=
  candidates.map fun c =>
    { c with score := (compute_weighted_score c.attack_norm c.minutes_norm
        c.value_norm (c.fixture_home : ℚ) w_attack w_minutes w_value w_fixture) }

/-- The Python sort key `(-score, -value_raw, price, player, team)`; strings
compare by character code points, as Python tuples do. -/
def rank_key (c : Candidate) : ℚ ×ₗ (ℚ ×ₗ (ℚ ×ₗ (List Char ×ₗ List Char))) :=
  toLex (-c.score, toLex (-c.value_raw, toLex (c.price,
    toLex (c.player.data, c.team.data))))

/-- The sort relation of `group.sort(key=...)` in `rank_candidates`. -/
def rank_le (a b : Candidate) : Prop := rank_key a ≤ rank_key b

instance : DecidableRel rank_le :=
  fun a b => inferInstanceAs (Decidable (rank_key a ≤ rank_key b))

instance : IsTrans Candidate rank_le := ⟨fun _ _ _ => le_trans⟩

instance : IsTotal Candidate rank_le := ⟨fun _ _ => le_total _ _⟩

/-- Models `for idx, candidate in enumerate(top_group, start=1):
candidate.rank_position = idx`. -/
def assign_ranks : ℤ → List Candidate → List Candidate
  | _, [] => []
  | i, c :: rest => { c with rank_position := i } :: assign_ranks (i + 1) rest

/-- The per-position body of `rank_candidates`: stable-sort the group by the
documented key, keep the first `top_n`, assign ranks from 1. -/
def rank_group (top_n : ℕ) (group : List Candidate) : List Candidate :=
  assign_ranks 1 ((List.insertionSort rank_le group).take top_n)

/-- Models `rank_candidates`: score every candidate, then rank each position
group; also returns the `rows_by_position` counts. -/
def rank_candidates (candidates : List Candidate) (positions : List String)
    (top_n : ℕ) (w_attack w_minutes w_value w_fixture : ℚ) :
    List Candidate × List (String × ℕ) :=
  let scored := score_candidates candidates w_attack w_minutes w_value w_fixture
  (positions.flatMap fun pos =>
      rank_group top_n (scored.filter (·.position == pos)),
   positions.map fun pos =>
      (pos, (rank_group top_n (scored.filter (·.position == pos))).length))

/-! Feature table (`build_feature_table.py`): rolling statistics and risk model. -/

/-- Models Python `values[-n:]` for `n > 0` (the whole list when `n ≥ len`). -/
def last_slice (n : ℕ) (l : List ℚ) : List ℚ := l.drop (l.length - n)

/-- Models `rolling_mean`. -/
def rolling_mean (values : List ℚ) (n : ℤ) : ℚ :=
  if n ≤ 0 then 0
  else
    let window := last_slice n.toNat values
    if window = [] then 0
    else window.sum / (window.length : ℚ)

/-- Models `rolling_std` (population standard deviation of the trailing window);
the square root is the abstract parameter `sqrtQ`. -/
def rolling_std (sqrtQ : ℚ → ℚ) (values : List ℚ) (n : ℤ) : ℚ :=
  if n ≤ 0 then 0
  else
    let window := last_slice n.toNat values
    if window.length ≤ 1 then 0
    else
      let mean := window.sum / (window.length : ℚ)
      let variance := (window.map fun x => (x - mean) ^ 2).sum / (window.length : ℚ)
      sqrtQ variance

/-- Models `compute_benching_probability`: the started/cameo/did-not-play rates
over the given observations, blended and clamped to [0, 1]; maximal risk 1.0 on
an empty history. -/
def compute_benching_probability (last_minutes : List ℚ) : ℚ :=
  if last_minutes = [] then 1
  else
    let n : ℚ := last_minutes.length
    let start_rate := ((last_minutes.filter fun m => decide (60 ≤ m)).length : ℚ) / n
    let cameo_rate := ((last_minutes.filter fun m => decide (0 < m ∧ m < 60)).length : ℚ) / n
    let dnp_rate := ((last_minutes.filter fun m => decide (m = 0)).length : ℚ) / n
    let bench_prob := 0.6 * dnp_rate + 0.3 * cameo_rate + 0.1 * (1 - start_rate)
    max 0 (min 1 bench_prob)

/-- Models `compute_risk_score`: the weighted blend of benching probability,
clamped volatility and the injury flag, clamped to [0, 1]. -/
def compute_risk_score (benching_probability minutes_volatility_5 : ℚ)
    (injury_flag : ℤ) : ℚ :=
  let vol_component := max 0 (min 1 minutes_volatility_5)
  let risk := 0.55 * benching_probability + 0.30 * vol_component
    + 0.15 * (injury_flag : ℚ)
  max 0 (min 1 risk)

/-! Feature table (`build_feature_table.py`): data model and row assembly. -/

/-- One row of the `players` query (already joined to `teams` for the label). -/
structure Player where
  player_id : ℤ
  player_name : String
  team_id : ℤ
  team : String
  position : String
  now_cost : Option ℚ
  status : String
deriving DecidableEq

/-- One row of the `fixtures` query. `kickoff_dt` models
`pd.to_datetime(kickoff_time, utc=True, errors="coerce")` (epoch seconds,
`none` when missing or unparsable). -/
structure Fixture where
  fixture_id : ℤ
  event : Option ℤ
  kickoff_time : Option String
  kickoff_dt : Option ℤ
  finished : Option ℤ
  team_h : ℤ
  team_a : ℤ
  team_h_difficulty : Option ℤ
  team_a_difficulty : Option ℤ
deriving DecidableEq

/-- One row of the `gw_player_stats` query, with `kickoff_dt` as in `Fixture`. -/
structure GwPlayerStat where
  player_id : ℤ
  fixture_id : ℤ
  round : Option ℤ
  kickoff_dt : Option ℤ
  minutes : Option ℚ
  total_points : Option ℚ
  expected_goal_involvements : Option ℚ
  expected_goals : Option ℚ
  expected_assists : Option ℚ
  value : Option ℚ
deriving DecidableEq

/-- One per-team perspective row, as produced by `_build_team_fixture_rows`
(after the `fillna(0).astype(int)` coercions of `event`, `finished` and
`opponent_difficulty`). -/
structure TeamFixture where
  fixture_id : ℤ
  event : ℤ
  kickoff_time : Option String
  kickoff_dt : Option ℤ
  finished : ℤ
  team_id : ℤ
  opponent_team_id : ℤ
  opponent_difficulty : ℤ
  is_home : ℤ
deriving DecidableEq

/-- Models `_build_team_fixture_rows`: each fixture yields a home-perspective row
followed (in the concatenated order) by an away-perspective row. -/
def build_team_fixture_rows (fixtures : List Fixture) : List TeamFixture :=
  let home := fixtures.map fun f =>
    { fixture_id := f.fixture_id, event := f.event.getD 0,
      kickoff_time := f.kickoff_time, kickoff_dt := f.kickoff_dt,
      finished := f.finished.getD 0, team_id := f.team_h,
      opponent_team_id := f.team_a,
      opponent_difficulty := f.team_h_difficulty.getD 0, is_home := 1 }
  let away := fixtures.map fun f =>
    { fixture_id := f.fixture_id, event := f.event.getD 0,
      kickoff_time := f.kickoff_time, kickoff_dt := f.kickoff_dt,
      finished := f.finished.getD 0, team_id := f.team_a,
      opponent_team_id := f.team_h,
      opponent_difficulty := f.team_a_difficulty.getD 0, is_home := 0 }
  home ++ away

/-- The sort key `["kickoff_dt", "event", "fixture_id"]` with NaT last, used by
`_build_rest_days_map` (the leading Bool is the NaT flag, `false < true`). -/
def team_fixture_sort_key (tf : TeamFixture) : (Bool ×ₗ ℤ) ×ₗ (ℤ ×ₗ ℤ) :=
  toLex (toLex (tf.kickoff_dt.isNone, tf.kickoff_dt.getD 0),
    toLex (tf.event, tf.fixture_id))

/-- The sort relation of the rest-days chronological scan. -/
def team_fixture_le (a b : TeamFixture) : Prop :=
  team_fixture_sort_key a ≤ team_fixture_sort_key b

instance : DecidableRel team_fixture_le :=
  fun a b => inferInstanceAs (Decidable (team_fixture_sort_key a ≤ team_fixture_sort_key b))

instance : IsTrans TeamFixture team_fixture_le := ⟨fun _ _ _ => le_trans⟩

instance : IsTotal TeamFixture team_fixture_le := ⟨fun _ _ => le_total _ _⟩

/-- The walk inside `_build_rest_days_map`: pairs every fixture of a
chronologically sorted team group with its rest-days value (gap in days since
the previous fixture with a known kickoff; `none` when undefined). -/
def rest_days_walk (previous_dt : Option ℤ) : List TeamFixture → List (ℤ × Option ℚ)
  | [] => []
  | tf :: rest =>
    let rd : Option ℚ :=
      match previous_dt, tf.kickoff_dt with
      | some p, some c => some (max 0 (((c - p : ℤ) : ℚ) / 86400))
      | _, _ => none
    let next_prev := match tf.kickoff_dt with
      | some c => some c
      | none => previous_dt
    (tf.fixture_id, rd) :: rest_days_walk next_prev rest

/-- Models the `rest_days_map` lookup keyed by (team, fixture); duplicate keys
follow dict semantics (last write wins). -/
def rest_days_lookup (team_fixtures : List TeamFixture) (team fixture : ℤ) :
    Option ℚ :=
  let group := team_fixtures.filter fun tf => tf.team_id == team
  let walked := rest_days_walk none (List.insertionSort team_fixture_le group)
  ((walked.reverse.find? fun e => e.1 == fixture).bind fun e => e.2)

/-- The `by_event` aggregation of `_build_horizon_map` for one (team group,
event): fixture count, mean opponent difficulty, home count; `none` when the
team has no fixture in that event (no `groupby` key). -/
def event_stats (group : List TeamFixture) (e : ℤ) : Option (ℤ × ℚ × ℤ) :=
  let fs := group.filter fun tf => tf.event == e
  if fs = [] then none
  else some ((fs.length : ℤ),
    (fs.map fun tf => (tf.opponent_difficulty : ℚ)).sum / (fs.length : ℚ),
    (fs.map (·.is_home)).sum)

/-- The forward scan of `_build_horizon_map` over events
`[event, event + max(1, horizon))`: total fixtures, count-weighted mean
difficulty (0 when no fixtures), home count. -/
def horizon_at (group : List TeamFixture) (horizon : ℤ) (event : ℤ) :
    ℤ × ℚ × ℤ :=
  let steps := (max 1 horizon).toNat
  let acc := (List.range steps).foldl
    (fun (acc : ℤ × ℚ × ℤ) i =>
      match event_stats group (event + (i : ℤ)) with
      | none => acc
      | some s => (acc.1 + s.1, acc.2.1 + s.2.1 * (s.1 : ℚ), acc.2.2 + s.2.2))
    (0, 0, 0)
  (acc.1, if 0 < acc.1 then acc.2.1 / (acc.1 : ℚ) else 0, acc.2.2)

/-- Models the `horizon_map.get((team, event), (0, 0.0, 0))` lookup: the map has
a key only for events in which the team has at least one fixture. -/
def horizon_lookup (team_fixtures : List TeamFixture) (horizon : ℤ)
    (team event : ℤ) : ℤ × ℚ × ℤ :=
  let group := team_fixtures.filter fun tf => tf.team_id == team
  match event_stats group event with
  | none => (0, 0, 0)
  | some _ => horizon_at group horizon event

/-- Models the `dgw_count_map.get((team, event), 1)` lookup: the per-(team,
event) fixture count, defaulting to 1 for absent keys (count 0). -/
def dgw_count_lookup (team_fixtures : List TeamFixture) (team event : ℤ) : ℤ :=
  let c := (team_fixtures.filter fun tf =>
    tf.team_id == team && tf.event == event).length
  if c = 0 then 1 else (c : ℤ)

/-- The distinct (team_id, team) pairs of the players table in first-occurrence
order (`drop_duplicates`). -/
def team_name_pairs (players : List Player) : List (ℤ × String) :=
  players.foldl
    (fun acc p =>
      if acc.contains (p.team_id, p.team) then acc else acc ++ [(p.team_id, p.team)])
    []

/-- Models the `team_name_map.get(team_id, "UNK")` lookup (dict built from the
deduplicated pairs, later pairs overwriting earlier ones). -/
def team_name_lookup (players : List Player) (team : ℤ) : String :=
  (((team_name_pairs players).reverse.find? fun e => e.1 == team).map
    fun e => e.2).getD "UNK"

/-- Models `_as_float`: `float(value)` with `TypeError`/`ValueError` mapped to 0. -/
def as_float (v : Option ℚ) : ℚ := v.getD 0

/-- Models `_is_prior_match`: compare kickoff timestamps when both are known,
otherwise fall back to round versus target event. -/
def is_prior_match (match_dt : Option ℤ) (match_round : ℤ)
    (target_dt : Option ℤ) (target_event : ℤ) : Bool :=
  match match_dt, target_dt with
  | some m, some t => decide (m < t)
  | _, _ => decide (match_round < target_event)

/-- One prepared history record (the dict built per player in
`build_feature_table`, lines 311-321; `fixture_id` is retained from the sorted
frame since it participates in the sort key). -/
structure HistoryRecord where
  kickoff_dt : Option ℤ
  round : ℤ
  minutes : ℚ
  points : ℚ
  xgi : ℚ
  price : ℚ
  fixture_id : ℤ
deriving DecidableEq

/-- The per-record `fillna` coercions of the history frame (lines 295-302):
round and minutes and points default to 0, `xgi_proxy` falls back to
xG + xA, and `price` is `value / 10`. -/
def prepare_history_record (h : GwPlayerStat) : HistoryRecord :=
  { kickoff_dt := h.kickoff_dt,
    round := h.round.getD 0,
    minutes := h.minutes.getD 0,
    points := h.total_points.getD 0,
    xgi := h.expected_goal_involvements.getD
      (h.expected_goals.getD 0 + h.expected_assists.getD 0),
    price := h.value.getD 0 / 10,
    fixture_id := h.fixture_id }

/-- The history sort key `["kickoff_dt", "round", "fixture_id"]` with NaT last. -/
def history_sort_key (h : HistoryRecord) : (Bool ×ₗ ℤ) ×ₗ (ℤ ×ₗ ℤ) :=
  toLex (toLex (h.kickoff_dt.isNone, h.kickoff_dt.getD 0),
    toLex (h.round, h.fixture_id))

/-- The sort relation of the per-player history ordering. -/
def history_le (a b : HistoryRecord) : Prop :=
  history_sort_key a ≤ history_sort_key b

instance : DecidableRel history_le :=
  fun a b => inferInstanceAs (Decidable (history_sort_key a ≤ history_sort_key b))

instance : IsTrans HistoryRecord history_le := ⟨fun _ _ _ => le_trans⟩

instance : IsTotal HistoryRecord history_le := ⟨fun _ _ => le_total _ _⟩

/-- Models `player_history.get(player_id, [])`: that player's records, prepared
and stably sorted by the history key. -/
def player_history_for (history : List GwPlayerStat) (pid : ℤ) :
    List HistoryRecord :=
  List.insertionSort history_le
    ((history.filter fun h => h.player_id == pid).map prepare_history_record)

/-- The strictly-prior cut (lines 330-339): the records of the player history
admitted by `_is_prior_match` for the given target. -/
def prior_records (history_rows : List HistoryRecord) (target_dt : Option ℤ)
    (target_event : ℤ) : List HistoryRecord :=
  history_rows.filter fun h =>
    is_prior_match h.kickoff_dt h.round target_dt target_event

/-- One output feature row (the `OUTPUT_COLUMNS` schema). -/
structure FeatureRow where
  player_id : ℤ
  player_name : String
  team_id : ℤ
  team : String
  position : String
  fixture_id : ℤ
  target_event : ℤ
  kickoff_time : Option String
  is_home : ℤ
  opponent_team_id : ℤ
  opponent_team : String
  opponent_difficulty : ℤ
  dgw_count_in_event : ℤ
  is_dgw : ℤ
  rest_days : Option ℚ
  horizon : ℤ
  horizon_fixture_count_team : ℤ
  horizon_avg_fixture_difficulty : ℚ
  horizon_home_count : ℤ
  recent_points_avg_3 : ℚ
  recent_points_avg_5 : ℚ
  recent_minutes_avg_3 : ℚ
  recent_minutes_avg_5 : ℚ
  recent_xgi_avg_3 : ℚ
  recent_xgi_avg_5 : ℚ
  minutes_volatility_5 : ℚ
  points_volatility_5 : ℚ
  benching_probability : ℚ
  risk_score : ℚ
  last_price : ℚ
  current_status : String
deriving DecidableEq

/-- The per-target-row body of the `build_feature_table` loop (lines 324-398):
every rolling statistic, volatility, benching probability and the last-price
fallback are computed from the strictly-prior records only. -/
def build_feature_row (sqrtQ : ℚ → ℚ) (players : List Player)
    (team_fixtures : List TeamFixture) (horizon : ℤ) (p : Player)
    (tf : TeamFixture) (history_rows : List HistoryRecord) : FeatureRow :=
  let target_event := tf.event
  let target_dt := tf.kickoff_dt
  let prior := prior_records history_rows target_dt target_event
  let prior_minutes := prior.map (·.minutes)
  let prior_points := prior.map (·.points)
  let prior_xgi := prior.map (·.xgi)
  let prior_prices := (prior.filter fun h => decide (0 < h.price)).map (·.price)
  let minutes_volatility_5 := rolling_std sqrtQ prior_minutes 5 / 90
  let points_volatility_5 := rolling_std sqrtQ prior_points 5
  let benching_probability := compute_benching_probability (last_slice 5 prior_minutes)
  let injury_flag : ℤ := if pyLower p.status = "a" then 0 else 1
  let risk_score := compute_risk_score benching_probability minutes_volatility_5 injury_flag
  let dgw_count := dgw_count_lookup team_fixtures p.team_id target_event
  let hz := horizon_lookup team_fixtures horizon p.team_id target_event
  { player_id := p.player_id, player_name := p.player_name,
    team_id := p.team_id, team := p.team, position := p.position,
    fixture_id := tf.fixture_id, target_event := target_event,
    kickoff_time := tf.kickoff_time,
    is_home := tf.is_home, opponent_team_id := tf.opponent_team_id,
    opponent_team := team_name_lookup players tf.opponent_team_id,
    opponent_difficulty := tf.opponent_difficulty,
    dgw_count_in_event := dgw_count,
    is_dgw := if 1 < dgw_count then 1 else 0,
    rest_days := rest_days_lookup team_fixtures p.team_id tf.fixture_id,
    horizon := max 1 horizon,
    horizon_fixture_count_team := hz.1,
    horizon_avg_fixture_difficulty := hz.2.1,
    horizon_home_count := hz.2.2,
    recent_points_avg_3 := rolling_mean prior_points 3,
    recent_points_avg_5 := rolling_mean prior_points 5,
    recent_minutes_avg_3 := rolling_mean prior_minutes 3,
    recent_minutes_avg_5 := rolling_mean prior_minutes 5,
    recent_xgi_avg_3 := rolling_mean prior_xgi 3,
    recent_xgi_avg_5 := rolling_mean prior_xgi 5,
    minutes_volatility_5 := minutes_volatility_5,
    points_volatility_5 := points_volatility_5,
    benching_probability := benching_probability,
    risk_score := risk_score,
    last_price := (match prior_prices.getLast? with
      | some x => x
      | none => as_float p.now_cost),
    current_status := p.status }

/-- The target universe (lines 271-276): team-fixture rows, restricted to
unfinished fixtures unless `include_finished`, and to positive events. -/
def target_team_fixtures (fixtures : List Fixture) (include_finished : Bool) :
    List TeamFixture :=
  let tfs := build_team_fixture_rows fixtures
  let tfs1 := if include_finished then tfs else tfs.filter fun tf => tf.finished == 0
  tfs1.filter fun tf => decide (0 < tf.event)

/-- The final output ordering `["target_event", "fixture_id", "team_id",
"player_id"]`. -/
def output_sort_key (r : FeatureRow) : ℤ ×ₗ (ℤ ×ₗ (ℤ ×ₗ ℤ)) :=
  toLex (r.target_event, toLex (r.fixture_id, toLex (r.team_id, r.player_id)))

/-- The sort relation of the final output ordering. -/
def output_le (a b : FeatureRow) : Prop := output_sort_key a ≤ output_sort_key b

instance : DecidableRel output_le :=
  fun a b => inferInstanceAs (Decidable (output_sort_key a ≤ output_sort_key b))

instance : IsTrans FeatureRow output_le := ⟨fun _ _ _ => le_trans⟩

instance : IsTotal FeatureRow output_le := ⟨fun _ _ => le_total _ _⟩

/-- Models `build_feature_table` on in-memory tables. The two fatal conditions
(`ValueError`) are `Except.error`: in the script they abort the run before any
output is written. The returned list models the written parquet rows. -/
def build_feature_table (sqrtQ : ℚ → ℚ) (players : List Player)
    (fixtures : List Fixture) (history : List GwPlayerStat) (horizon : ℤ)
    (include_finished : Bool) : Except String (List FeatureRow) :=
  if players = [] ∨ fixtures = [] then
    .error "Missing source data in DB (players/fixtures)"
  else
    let team_fixtures := build_team_fixture_rows fixtures
    let targets := target_team_fixtures fixtures include_finished
    if targets = [] then .error "No target fixtures found after filtering"
    else
      let target_rows := players.flatMap fun p =>
        (targets.filter fun tf => tf.team_id == p.team_id).map fun tf => (p, tf)
      let feature_rows := target_rows.map fun pt =>
        build_feature_row sqrtQ players team_fixtures horizon pt.1 pt.2
          (player_history_for history pt.1.player_id)
      .ok (List.insertionSort output_le feature_rows)

/-- The rows emitted by a `build_feature_table` run (none on a fatal error). -/
def feature_rows_of (e : Except String (List FeatureRow)) : List FeatureRow :=
  match e with
  | .ok l => l
  | .error _ => []

/-! Concrete witness data. -/

/-- A concrete phase-1 row whose price parses to 0. -/
def row_zero_price : Phase1Row :=
  { player := "Alpha", team := "AAA", position := "MID", price := some 0,
    next_opponent := "BBB (H)", minutes_avg := some 60, xg90 := some 1,
    xa90 := some 0 }

/-- The candidate `build_candidates` produces from `row_zero_price`. -/
def cand_zero_price : Candidate :=
  { player := "Alpha", team := "AAA", position := "MID", price := 0,
    next_opponent := "BBB (H)", minutes_avg := 60, xg90 := 1, xa90 := 0,
    attack_raw := 1, minutes_raw := 2 / 3, value_raw := 0, fixture_home := 1 }

/-- A concrete phase-1 row whose price parses to 5. -/
def row_pos_price : Phase1Row :=
  { player := "Beta", team := "AAA", position := "MID", price := some 5,
    next_opponent := "CCC", minutes_avg := some 60, xg90 := some 1,
    xa90 := some 0 }

/-- The candidate `build_candidates` produces from `row_pos_price`. -/
def cand_pos_price : Candidate :=
  { player := "Beta", team := "AAA", position := "MID", price := 5,
    next_opponent := "CCC", minutes_avg := 60, xg90 := 1, xa90 := 0,
    attack_raw := 1, minutes_raw := 2 / 3, value_raw := 1 / 5, fixture_home := 0 }

/-- A concrete candidate whose normalized attack signal is 1/3 (as produced by
min-max normalization of a three-point group), used to exhibit the effect of
the six-decimal rounding of `compute_weighted_score`. -/
def cand_third_norm : Candidate :=
  { player := "Gamma", team := "AAA", position := "MID", price := 7,
    next_opponent := "DDD", minutes_avg := 60, xg90 := 1, xa90 := 0,
    attack_raw := 1, minutes_raw := 1, value_raw := 0, fixture_home := 0,
    attack_norm := 1 / 3, minutes_norm := 1 / 2, value_norm := 1 / 2 }

/-- The ranked output row `rank_candidates` produces from `cand_third_norm`
with the default weights. -/
def cand_third_norm_ranked : Candidate :=
  { cand_third_norm with
    score := (compute_weighted_score cand_third_norm.attack_norm
      cand_third_norm.minutes_norm cand_third_norm.value_norm
      (cand_third_norm.fixture_home : ℚ) 0.50 0.25 0.20 0.05),
    rank_position := 1 }

/-- Forgets the assigned rank, for stating which candidates `rank_group`
keeps. -/
def clear_rank (c : Candidate) : Candidate := { c with rank_position := 0 }

/-- A concrete prepared history record with a known kickoff timestamp. -/
def hist_rec_timed : HistoryRecord :=
  { kickoff_dt := some 5, round := 1, minutes := 90, points := 6, xgi := 1,
    price := 5, fixture_id := 7 }

/-- A concrete prepared history record with an unknown (NaT) kickoff. -/
def hist_rec_roundonly : HistoryRecord :=
  { kickoff_dt := none, round := 2, minutes := 0, points := 0, xgi := 0,
    price := 0, fixture_id := 8 }

/-- A concrete available midfielder for feature-table runs. -/
def player_w : Player :=
  { player_id := 1, player_name := "Alpha A", team_id := 10, team := "AAA",
    position := "MID", now_cost := some 55, status := "a" }

/-- A concrete unfinished event-1 fixture between teams 10 and 11. -/
def fixture_w : Fixture :=
  { fixture_id := 100, event := some 1,
    kickoff_time := some "2025-08-16T14:00:00Z", kickoff_dt := some 1000000,
    finished := some 0, team_h := 10, team_a := 11,
    team_h_difficulty := some 3, team_a_difficulty := some 2 }

/-- A concrete already-finished fixture (filtered out of the target universe). -/
def fixture_finished_w : Fixture :=
  { fixture_id := 101, event := some 1,
    kickoff_time := some "2025-08-01T14:00:00Z", kickoff_dt := some 900000,
    finished := some 1, team_h := 10, team_a := 11,
    team_h_difficulty := some 3, team_a_difficulty := some 2 }

/-- The team-fixture rows of `fixture_w`. -/
def team_fixtures_w : List TeamFixture := build_team_fixture_rows [fixture_w]

/-- The home-perspective row of `fixture_w`. -/
def home_tf_w : TeamFixture :=
  { fixture_id := 100, event := 1,
    kickoff_time := some "2025-08-16T14:00:00Z", kickoff_dt := some 1000000,
    finished := 0, team_id := 10, opponent_team_id := 11,
    opponent_difficulty := 3, is_home := 1 }

/-- The away-perspective row of `fixture_w`. -/
def away_tf_w : TeamFixture :=
  { fixture_id := 100, event := 1,
    kickoff_time := some "2025-08-16T14:00:00Z", kickoff_dt := some 1000000,
    finished := 0, team_id := 11, opponent_team_id := 10,
    opponent_difficulty := 2, is_home := 0 }

/-- The single feature row a run on `player_w` and `fixture_w` emits. -/
def feature_row_w : FeatureRow :=
  build_feature_row id [player_w] team_fixtures_w 3 player_w home_tf_w
    (player_history_for [] player_w.player_id)

/-! Helper lemmas. -/

theorem clamp01_nonneg (x : ℚ) : 0 ≤ max 0 (min 1 x) := le_max_left 0 _

theorem clamp01_le_one (x : ℚ) : max 0 (min 1 x) ≤ 1 :=
  max_le zero_le_one (min_le_left 1 x)

theorem clamp01_mono {x y : ℚ} (h : x ≤ y) :
    max 0 (min 1 x) ≤ max 0 (min 1 y) :=
  max_le_max le_rfl (min_le_min le_rfl h)

theorem foldl_min_le_init (vs : List ℚ) (v : ℚ) : vs.foldl min v ≤ v := by
  induction vs generalizing v with
  | nil => simp
  | cons a l ih => exact le_trans (ih (min v a)) (min_le_left v a)

theorem foldl_min_le_mem {vs : List ℚ} {x : ℚ} (v : ℚ) (hx : x ∈ vs) :
    vs.foldl min v ≤ x := by
  induction vs generalizing v with
  | nil => cases hx
  | cons a l ih =>
    rcases List.mem_cons.mp hx with rfl | hmem
    · exact le_trans (foldl_min_le_init l (min v x)) (min_le_right v x)
    · exact ih (min v a) hmem

theorem init_le_foldl_max (vs : List ℚ) (v : ℚ) : v ≤ vs.foldl max v := by
  induction vs generalizing v with
  | nil => simp
  | cons a l ih => exact le_trans (le_max_left v a) (ih (max v a))

theorem mem_le_foldl_max {vs : List ℚ} {x : ℚ} (v : ℚ) (hx : x ∈ vs) :
    x ≤ vs.foldl max v := by
  induction vs generalizing v with
  | nil => cases hx
  | cons a l ih =>
    rcases List.mem_cons.mp hx with rfl | hmem
    · exact le_trans (le_max_right v x) (init_le_foldl_max l (max v x))
    · exact ih (max v a) hmem

theorem foldl_min_le_cons {v : ℚ} {vs : List ℚ} {x : ℚ} (hx : x ∈ v :: vs) :
    vs.foldl min v ≤ x := by
  rcases List.mem_cons.mp hx with rfl | hmem
  · exact foldl_min_le_init vs x
  · exact foldl_min_le_mem v hmem

theorem cons_le_foldl_max {v : ℚ} {vs : List ℚ} {x : ℚ} (hx : x ∈ v :: vs) :
    x ≤ vs.foldl max v := by
  rcases List.mem_cons.mp hx with rfl | hmem
  · exact init_le_foldl_max vs x
  · exact mem_le_foldl_max v hmem

theorem le_foldl_min {vs : List ℚ} {c : ℚ} (v : ℚ) (hc : c ≤ v)
    (h : ∀ x ∈ vs, c ≤ x) : c ≤ vs.foldl min v := by
  induction vs generalizing v with
  | nil => exact hc
  | cons a l ih =>
    exact ih (min v a) (le_min hc (h a (List.mem_cons_self a l)))
      fun x hx => h x (List.mem_cons_of_mem a hx)

theorem foldl_max_le {vs : List ℚ} {c : ℚ} (v : ℚ) (hc : v ≤ c)
    (h : ∀ x ∈ vs, x ≤ c) : vs.foldl max v ≤ c := by
  induction vs generalizing v with
  | nil => exact hc
  | cons a l ih =>
    exact ih (max v a) (max_le hc (h a (List.mem_cons_self a l)))
      fun x hx => h x (List.mem_cons_of_mem a hx)

theorem candidate_of_row_zero_price :
    candidate_of_row ["MID"] 30 row_zero_price = some cand_zero_price := by
  have hc1 : (["MID"].contains (pyUpper (pyStrip "MID"))) = true := by decide
  have hs2 : pyUpper (pyStrip "MID") = "MID" := by decide
  have hs3 : pyStrip "Alpha" = "Alpha" := by decide
  have hs4 : pyStrip "AAA" = "AAA" := by decide
  have hs5 : pyStrip "BBB (H)" = "BBB (H)" := by decide
  have hs6 : parse_fixture_home "BBB (H)" = 1 := by decide
  norm_num [candidate_of_row, row_zero_price, cand_zero_price, parse_float,
    clamp, hc1, hs2, hs3, hs4, hs5, hs6, min_def, max_def]

theorem candidate_of_row_pos_price :
    candidate_of_row ["MID"] 30 row_pos_price = some cand_pos_price := by
  have hc1 : (["MID"].contains (pyUpper (pyStrip "MID"))) = true := by decide
  have hs2 : pyUpper (pyStrip "MID") = "MID" := by decide
  have hs3 : pyStrip "Beta" = "Beta" := by decide
  have hs4 : pyStrip "AAA" = "AAA" := by decide
  have hs5 : pyStrip "CCC" = "CCC" := by decide
  have hs6 : parse_fixture_home "CCC" = 0 := by decide
  norm_num [candidate_of_row, row_pos_price, cand_pos_price, parse_float,
    clamp, hc1, hs2, hs3, hs4, hs5, hs6, min_def, max_def]

theorem cand_zero_price_mem :
    cand_zero_price ∈ build_candidates [row_zero_price] ["MID"] 30 := by
  rw [build_candidates]
  simp [List.filterMap_cons, candidate_of_row_zero_price]

theorem cand_pos_price_mem :
    cand_pos_price ∈ build_candidates [row_pos_price] ["MID"] 30 := by
  rw [build_candidates]
  simp [List.filterMap_cons, candidate_of_row_pos_price]

theorem mem_assign_ranks {c : Candidate} :
    ∀ {l : List Candidate} {i : ℤ}, c ∈ assign_ranks i l →
      ∃ c' ∈ l, c = { c' with rank_position := c.rank_position } := by
  intro l
  induction l with
  | nil => intro i h; cases h
  | cons a rest ih =>
    intro i h
    rcases List.mem_cons.mp h with hc | hmem
    · exact ⟨a, List.mem_cons_self a rest, by rw [hc]⟩
    · obtain ⟨c', hc', he⟩ := ih hmem
      exact ⟨c', List.mem_cons_of_mem a hc', he⟩

theorem assign_ranks_map_rank (l : List Candidate) :
    ∀ i : ℕ, (assign_ranks (i : ℤ) l).map (fun c => c.rank_position) =
      (List.range' i l.length).map Int.ofNat := by
  induction l with
  | nil => intro i; rfl
  | cons a rest ih =>
    intro i
    have hcast : ((i : ℤ) + 1) = (((i + 1 : ℕ)) : ℤ) := by push_cast; ring
    simp only [assign_ranks, List.map_cons, List.length_cons, List.range'_succ,
      hcast, ih (i + 1)]
    rfl

theorem assign_ranks_map_clear (l : List Candidate) :
    ∀ i : ℤ, (assign_ranks i l).map clear_rank = l.map clear_rank := by
  induction l with
  | nil => intro i; rfl
  | cons a rest ih =>
    intro i
    simp only [assign_ranks, List.map_cons, ih]
    rfl

theorem map_rank_key_assign_ranks (l : List Candidate) :
    ∀ i : ℤ, (assign_ranks i l).map rank_key = l.map rank_key := by
  induction l with
  | nil => intro i; rfl
  | cons a rest ih =>
    intro i
    simp only [assign_ranks, List.map_cons, ih]
    rfl

theorem pairwise_rank_le_iff (l : List Candidate) :
    List.Pairwise rank_le l ↔ List.Pairwise (· ≤ ·) (l.map rank_key) := by
  rw [List.pairwise_map]
  exact Iff.rfl

theorem pairwise_assign_ranks {l : List Candidate} (i : ℤ)
    (h : List.Pairwise rank_le l) : List.Pairwise rank_le (assign_ranks i l) := by
  rw [pairwise_rank_le_iff, map_rank_key_assign_ranks]
  rw [pairwise_rank_le_iff] at h
  exact h

/-! Claim theorems. -/

/-- Claim C2 counterexample: on the all-starts history `[90, 90, 90, 90, 90]`
the start rate is 1 and the cameo and did-not-play rates are 0, so
`compute_benching_probability` does not return 0.1. -/
theorem benching_probability_all_starts_ne_point_one :
    compute_benching_probability [90, 90, 90, 90, 90] ≠ 0.1 := by
  norm_num [compute_benching_probability, List.filter, List.cons_ne_nil]

/-- Claim C2 (amended): `compute_benching_probability` applied to the
five-element minutes history `[90, 90, 90, 90, 90]` returns exactly 0.0. -/
theorem benching_probability_all_starts_eq_zero :
    compute_benching_probability [90, 90, 90, 90, 90] = 0 := by
  norm_num [compute_benching_probability, List.filter, List.cons_ne_nil]

/-- Claim C3: on a non-empty history `compute_benching_probability` computes
the did-not-play (minutes = 0), cameo (0 < minutes < 60) and started
(minutes ≥ 60) rates over the given observations and returns
`0.6·dnp + 0.3·cameo + 0.1·(1 − start)` clamped to [0, 1]; the empty history
returns exactly 1.0; the result always lies in [0, 1]. -/
theorem compute_benching_probability_spec (last_minutes : List ℚ) :
    (last_minutes = [] → compute_benching_probability last_minutes = 1) ∧
    (last_minutes ≠ [] →
      compute_benching_probability last_minutes =
        max 0 (min 1
          (0.6 * (((last_minutes.filter fun m => decide (m = 0)).length : ℚ)
              / last_minutes.length)
            + 0.3 * (((last_minutes.filter fun m => decide (0 < m ∧ m < 60)).length : ℚ)
              / last_minutes.length)
            + 0.1 * (1 - ((last_minutes.filter fun m => decide (60 ≤ m)).length : ℚ)
              / last_minutes.length)))) ∧
    0 ≤ compute_benching_probability last_minutes ∧
    compute_benching_probability last_minutes ≤ 1 := by
  refine ⟨fun h => by simp [compute_benching_probability, h],
    fun h => ?_, ?_, ?_⟩
  · simp only [compute_benching_probability, if_neg h]
  · by_cases h : last_minutes = []
    · simp [compute_benching_probability, h]
    · simp only [compute_benching_probability, if_neg h]
      exact clamp01_nonneg _
  · by_cases h : last_minutes = []
    · simp [compute_benching_probability, h]
    · simp only [compute_benching_probability, if_neg h]
      exact clamp01_le_one _

/-- Claim C3 witness: the spec evaluated at the empty history and at the
concrete one-cameo history `[30]`. -/
theorem compute_benching_probability_spec_witness :
    compute_benching_probability [] = 1 ∧
    compute_benching_probability [30] = 2 / 5 ∧
    0 ≤ compute_benching_probability [30] := by
  refine ⟨(compute_benching_probability_spec []).1 rfl, ?_,
    (compute_benching_probability_spec [30]).2.2.1⟩
  have h := (compute_benching_probability_spec [30]).2.1 (by decide)
  rw [h]
  norm_num [List.filter]

/-- Claim C4: `compute_risk_score` equals
`0.55·benching + 0.30·clamp(volatility, 0, 1) + 0.15·injury_flag` clamped to
[0, 1]; the result lies in [0, 1] and the function is monotonically
non-decreasing in each of its three arguments. -/
theorem compute_risk_score_spec (b v : ℚ) (f : ℤ) :
    compute_risk_score b v f
        = max 0 (min 1 (0.55 * b + 0.30 * clamp v 0 1 + 0.15 * (f : ℚ))) ∧
    0 ≤ compute_risk_score b v f ∧
    compute_risk_score b v f ≤ 1 ∧
    (∀ b', b ≤ b' → compute_risk_score b v f ≤ compute_risk_score b' v f) ∧
    (∀ v', v ≤ v' → compute_risk_score b v f ≤ compute_risk_score b v' f) ∧
    (∀ f', f ≤ f' → compute_risk_score b v f ≤ compute_risk_score b v f') := by
  refine ⟨by simp only [compute_risk_score, clamp]; rw [min_comm v 1],
    clamp01_nonneg _, clamp01_le_one _, ?_, ?_, ?_⟩
  · intro b' hb
    simp only [compute_risk_score]
    exact clamp01_mono (by linarith)
  · intro v' hv
    simp only [compute_risk_score]
    have h1 : max 0 (min 1 v) ≤ max 0 (min 1 v') :=
      max_le_max le_rfl (min_le_min le_rfl hv)
    exact clamp01_mono (by linarith)
  · intro f' hf
    simp only [compute_risk_score]
    have h1 : (f : ℚ) ≤ (f' : ℚ) := Int.cast_le.mpr hf
    exact clamp01_mono (by linarith)

/-- Claim C7: `minmax_normalize` maps a non-empty all-equal list to 0.5
everywhere; otherwise it maps each element x to `(x - min) / (max - min)`;
every output element lies in [0, 1]. -/
theorem minmax_normalize_spec (values : List ℚ) :
    (values ≠ [] → (∀ x ∈ values, ∀ y ∈ values, x = y) →
      minmax_normalize values = values.map fun _ => (0.5 : ℚ)) ∧
    (∀ v vs, values = v :: vs →
      ¬ (∀ x ∈ values, ∀ y ∈ values, x = y) →
      minmax_normalize values =
        values.map fun x =>
          (x - vs.foldl min v) / (vs.foldl max v - vs.foldl min v)) ∧
    (∀ y ∈ minmax_normalize values, 0 ≤ y ∧ y ≤ 1) := by
  refine ⟨?_, ?_, ?_⟩
  · intro hne hall
    cases values with
    | nil => exact absurd rfl hne
    | cons v vs =>
      have hv : v ∈ v :: vs := List.mem_cons_self v vs
      have hmin : vs.foldl min v = v :=
        le_antisymm (foldl_min_le_init vs v)
          (le_foldl_min v le_rfl fun x hx =>
            le_of_eq (hall v hv x (List.mem_cons_of_mem v hx)))
      have hmax : vs.foldl max v = v :=
        le_antisymm
          (foldl_max_le v le_rfl fun x hx =>
            le_of_eq (hall x (List.mem_cons_of_mem v hx) v hv))
          (init_le_foldl_max vs v)
      simp only [minmax_normalize]
      rw [hmin, hmax, if_pos rfl]
  · intro v vs hv hnall
    subst hv
    have hne' : ¬ vs.foldl max v = vs.foldl min v := by
      intro heq
      apply hnall
      intro x hx y hy
      have h1 : x = vs.foldl min v :=
        le_antisymm (heq ▸ cons_le_foldl_max hx) (foldl_min_le_cons hx)
      have h2 : y = vs.foldl min v :=
        le_antisymm (heq ▸ cons_le_foldl_max hy) (foldl_min_le_cons hy)
      rw [h1, h2]
    simp only [minmax_normalize]
    rw [if_neg hne']
  · intro y hy
    cases values with
    | nil => simp [minmax_normalize] at hy
    | cons v vs =>
      simp only [minmax_normalize] at hy
      by_cases heq : vs.foldl max v = vs.foldl min v
      · rw [if_pos heq] at hy
        obtain ⟨x, _, rfl⟩ := List.mem_map.mp hy
        norm_num
      · rw [if_neg heq] at hy
        obtain ⟨x, hx, rfl⟩ := List.mem_map.mp hy
        have hxmin := foldl_min_le_cons hx
        have hxmax := cons_le_foldl_max hx
        have hminmax : vs.foldl min v ≤ vs.foldl max v :=
          le_trans (foldl_min_le_init vs v) (init_le_foldl_max vs v)
        have hlt : vs.foldl min v < vs.foldl max v :=
          lt_of_le_of_ne hminmax fun h => heq h.symm
        constructor
        · exact div_nonneg (by linarith) (by linarith)
        · rw [div_le_one (by linarith)]
          linarith

/-- Claim C7 witness: the spec evaluated at the all-equal list `[2, 2, 2]`
(giving `[0.5, 0.5, 0.5]`) and at the two-element list `[0, 2]`. -/
theorem minmax_normalize_spec_witness :
    minmax_normalize [2, 2, 2] = [0.5, 0.5, 0.5] ∧
    minmax_normalize [0, 2] = [0, 1] ∧
    (0 ≤ (1 : ℚ) ∧ (1 : ℚ) ≤ 1) := by
  have h2 : minmax_normalize [0, 2] = [0, 1] := by
    have h := (minmax_normalize_spec [0, 2]).2.1 0 [2] rfl (by decide)
    rw [h]
    norm_num [List.foldl, min_def, max_def]
  refine ⟨?_, h2, ?_⟩
  · have h := (minmax_normalize_spec [2, 2, 2]).1 (by decide) (by decide)
    rw [h]
    rfl
  · exact (minmax_normalize_spec [0, 2]).2.2 1 (by rw [h2]; norm_num)

/-- Claim C4 witness: the spec evaluated at concrete inputs, discharging each
monotonicity hypothesis at 0 ≤ 1. -/
theorem compute_risk_score_spec_witness :
    compute_risk_score 0 0 0 ≤ compute_risk_score 1 0 0 ∧
    compute_risk_score 0 0 0 ≤ compute_risk_score 0 1 0 ∧
    compute_risk_score 0 0 0 ≤ compute_risk_score 0 0 1 ∧
    0 ≤ compute_risk_score 0 0 0 :=
  ⟨(compute_risk_score_spec 0 0 0).2.2.2.1 1 (by norm_num),
   (compute_risk_score_spec 0 0 0).2.2.2.2.1 1 (by norm_num),
   (compute_risk_score_spec 0 0 0).2.2.2.2.2 1 (by decide),
   (compute_risk_score_spec 0 0 0).2.1⟩

/-- Claim C10: `build_candidates` never divides by zero for the value-for-money
signal: when the parsed price is not strictly positive `value_raw` is 0, and
`value_raw` is the quotient `attack_raw / price` only under `0 < price`. -/
theorem build_candidates_value_raw_safe (rows : List Phase1Row)
    (positions : List String) (min_minutes_avg : ℚ) :
    ∀ c ∈ build_candidates rows positions min_minutes_avg,
      (¬ 0 < c.price → c.value_raw = 0) ∧
      (0 < c.price → c.value_raw = c.attack_raw / c.price) := by
  intro c hc
  rw [build_candidates, List.mem_filterMap] at hc
  obtain ⟨row, _, hrow⟩ := hc
  rw [candidate_of_row] at hrow
  split at hrow
  · dsimp only at hrow
    split at hrow
    · exact absurd hrow (by simp)
    · split at hrow
      · exact absurd hrow (by simp)
      · rw [Option.some_inj] at hrow
        subst hrow
        by_cases hp : 0 < parse_float row.price <;> simp [hp]
  · exact absurd hrow (by simp)

/-- Claim C10 witness: the safety property evaluated on one zero-price and one
positive-price concrete candidate. -/
theorem build_candidates_value_raw_safe_witness :
    cand_zero_price.value_raw = 0 ∧
    cand_pos_price.value_raw = cand_pos_price.attack_raw / cand_pos_price.price :=
  ⟨(build_candidates_value_raw_safe [row_zero_price] ["MID"] 30
      cand_zero_price cand_zero_price_mem).1 (by norm_num [cand_zero_price]),
    (build_candidates_value_raw_safe [row_pos_price] ["MID"] 30
      cand_pos_price cand_pos_price_mem).2 (by norm_num [cand_pos_price])⟩

/-- Claim C5 counterexample: for the concrete candidate with normalized signals
(1/3, 1/2, 1/2) and the default weights, the emitted score is the six-decimal
rounding 0.391667, not the exact weighted sum 47/120. -/
theorem score_rounding_counterexample :
    (score_candidates [cand_third_norm] 0.50 0.25 0.20 0.05).map Candidate.score ≠
      [0.50 * (1 / 3 : ℚ) + 0.25 * (1 / 2) + 0.20 * (1 / 2) + 0.05 * 0] := by
  simp only [score_candidates, List.map_cons, List.map_nil, cand_third_norm]
  norm_num [compute_weighted_score, round_to_6, round_half_even,
    Int.floor_eq_iff]

/-- Claim C5 (amended): every candidate emitted by `rank_candidates` has
`score = round(w_attack·attack_norm + w_minutes·minutes_norm +
w_value·value_norm + w_fixture·fixture_flag, 6)` — the weighted sum of the
supplied configuration weights rounded to six decimal places — and the
fixture flag is 1 exactly when the stripped next-opponent annotation ends in
"(H)" (a home fixture), else 0. -/
theorem rank_candidates_score_formula (candidates : List Candidate)
    (positions : List String) (top_n : ℕ)
    (w_attack w_minutes w_value w_fixture : ℚ) :
    (∀ c ∈ (rank_candidates candidates positions top_n
        w_attack w_minutes w_value w_fixture).1,
      c.score = round_to_6 (w_attack * c.attack_norm + w_minutes * c.minutes_norm
        + w_value * c.value_norm + w_fixture * (c.fixture_home : ℚ))) ∧
    (∀ s : String, parse_fixture_home s =
      if pyEndsWith (pyStrip s) "(H)" then 1 else 0) ∧
    (∀ (rows : List Phase1Row) (ps : List String) (m : ℚ),
      ∀ c ∈ build_candidates rows ps m,
        ∃ r ∈ rows, c.fixture_home = parse_fixture_home r.next_opponent) := by
  refine ⟨?_, fun s => rfl, ?_⟩
  · intro c hc
    simp only [rank_candidates] at hc
    rw [List.mem_flatMap] at hc
    obtain ⟨pos, _, hcg⟩ := hc
    rw [rank_group] at hcg
    obtain ⟨c', hc', he⟩ := mem_assign_ranks hcg
    have hc'' : c' ∈ score_candidates candidates w_attack w_minutes w_value w_fixture :=
      List.mem_of_mem_filter
        ((List.mem_insertionSort rank_le).mp (List.mem_of_mem_take hc'))
    rw [score_candidates, List.mem_map] at hc''
    obtain ⟨c0, _, hc0⟩ := hc''
    have hs : c.score = c'.score := by rw [he]
    have ha : c.attack_norm = c'.attack_norm := by rw [he]
    have hm : c.minutes_norm = c'.minutes_norm := by rw [he]
    have hv : c.value_norm = c'.value_norm := by rw [he]
    have hf : c.fixture_home = c'.fixture_home := by rw [he]
    rw [hs, ha, hm, hv, hf, ← hc0]
    rfl
  · intro rows ps m c hc
    rw [build_candidates, List.mem_filterMap] at hc
    obtain ⟨r, hr, hrow⟩ := hc
    refine ⟨r, hr, ?_⟩
    rw [candidate_of_row] at hrow
    split at hrow
    · dsimp only at hrow
      split at hrow
      · exact absurd hrow (by simp)
      · split at hrow
        · exact absurd hrow (by simp)
        · rw [Option.some_inj] at hrow
          subst hrow
          rfl
    · exact absurd hrow (by simp)

/-- Claim C5 witness: the amended formula evaluated on the concrete ranked
candidate, plus the fixture-flag characterization at concrete annotations. -/
theorem rank_candidates_score_formula_witness :
    cand_third_norm_ranked.score =
      round_to_6 (0.50 * cand_third_norm_ranked.attack_norm
        + 0.25 * cand_third_norm_ranked.minutes_norm
        + 0.20 * cand_third_norm_ranked.value_norm
        + 0.05 * (cand_third_norm_ranked.fixture_home : ℚ)) ∧
    parse_fixture_home " Spurs (H)" = 1 ∧
    cand_zero_price.fixture_home = parse_fixture_home row_zero_price.next_opponent := by
  have hmem : cand_third_norm_ranked ∈
      (rank_candidates [cand_third_norm] ["MID"] 5 0.50 0.25 0.20 0.05).1 := by
    have hpos : (cand_third_norm.position == "MID") = true := by decide
    simp [rank_candidates, score_candidates, rank_group, List.insertionSort,
      List.orderedInsert, assign_ranks, cand_third_norm_ranked, hpos]
  refine ⟨(rank_candidates_score_formula [cand_third_norm] ["MID"] 5
      0.50 0.25 0.20 0.05).1 cand_third_norm_ranked hmem, ?_, ?_⟩
  · rw [(rank_candidates_score_formula [] [] 0 0 0 0 0).2.1 " Spurs (H)"]
    decide
  · obtain ⟨r, hr, heq⟩ := (rank_candidates_score_formula [] [] 0 0 0 0 0).2.2
      [row_zero_price] ["MID"] 30 cand_zero_price cand_zero_price_mem
    rw [List.mem_singleton] at hr
    rw [heq, hr]

/-- Claim C6: within each position group `rank_candidates` sorts the scored
candidates by the deterministic key — descending score, then descending
value_raw, then ascending price, player name, team label — keeps only the
first `top_n`, and assigns contiguous ranks 1, 2, … in that exact order. -/
theorem rank_candidates_group_top_n (candidates : List Candidate)
    (positions : List String) (top_n : ℕ)
    (w_attack w_minutes w_value w_fixture : ℚ) :
    (rank_candidates candidates positions top_n
        w_attack w_minutes w_value w_fixture).1 =
      (positions.flatMap fun pos => rank_group top_n
        ((score_candidates candidates w_attack w_minutes w_value w_fixture).filter
          (·.position == pos))) ∧
    (∀ a b : Candidate, rank_le a b ↔
      (b.score < a.score ∨ (a.score = b.score ∧
        (b.value_raw < a.value_raw ∨ (a.value_raw = b.value_raw ∧
          (a.price < b.price ∨ (a.price = b.price ∧
            (a.player.data < b.player.data ∨ (a.player.data = b.player.data ∧
              a.team.data ≤ b.team.data))))))))) ∧
    (∀ (n : ℕ) (group : List Candidate),
      (rank_group n group).map (fun c => c.rank_position) =
        (List.range' 1 (min n group.length)).map Int.ofNat ∧
      List.Pairwise rank_le (rank_group n group) ∧
      (rank_group n group).map clear_rank =
        ((List.insertionSort rank_le group).take n).map clear_rank ∧
      (List.insertionSort rank_le group).Perm group) := by
  refine ⟨rfl, ?_, ?_⟩
  · intro a b
    simp [rank_le, rank_key, Prod.Lex.le_iff, neg_lt_neg_iff, neg_inj]
  · intro n group
    refine ⟨?_, ?_, ?_, List.perm_insertionSort rank_le group⟩
    · have hlen : ((List.insertionSort rank_le group).take n).length
          = min n group.length := by
        rw [List.length_take, List.length_insertionSort]
      rw [rank_group, show (1 : ℤ) = ((1 : ℕ) : ℤ) from rfl,
        assign_ranks_map_rank, hlen]
    · exact pairwise_assign_ranks 1
        (List.Pairwise.sublist (List.take_sublist n _)
          (List.sorted_insertionSort rank_le group))
    · rw [rank_group, assign_ranks_map_clear]

/-- Claim C1: every history record admitted into a target row's strictly-prior
window satisfies the leakage-free cut — when both the record's and the target's
kickoff timestamps are known, the record's timestamp is strictly smaller;
otherwise the record's round is strictly smaller than the target event — and
every rolling statistic, volatility, benching probability and the last-price
fallback of the row built by `build_feature_row` is computed from exactly that
window. -/
theorem prior_records_no_leakage :
    (∀ (history_rows : List HistoryRecord) (target_dt : Option ℤ)
        (target_event : ℤ),
      ∀ rec ∈ prior_records history_rows target_dt target_event,
        (∀ m t, rec.kickoff_dt = some m → target_dt = some t → m < t) ∧
        ((rec.kickoff_dt = none ∨ target_dt = none) →
          rec.round < target_event)) ∧
    (∀ (sqrtQ : ℚ → ℚ) (players : List Player)
        (team_fixtures : List TeamFixture) (horizon : ℤ) (p : Player)
        (tf : TeamFixture) (history_rows : List HistoryRecord),
      (build_feature_row sqrtQ players team_fixtures horizon p tf history_rows).benching_probability
          = compute_benching_probability (last_slice 5
            ((prior_records history_rows tf.kickoff_dt tf.event).map (·.minutes))) ∧
      (build_feature_row sqrtQ players team_fixtures horizon p tf history_rows).minutes_volatility_5
          = rolling_std sqrtQ
            ((prior_records history_rows tf.kickoff_dt tf.event).map (·.minutes)) 5 / 90 ∧
      (build_feature_row sqrtQ players team_fixtures horizon p tf history_rows).points_volatility_5
          = rolling_std sqrtQ
            ((prior_records history_rows tf.kickoff_dt tf.event).map (·.points)) 5 ∧
      (build_feature_row sqrtQ players team_fixtures horizon p tf history_rows).recent_points_avg_3
          = rolling_mean
            ((prior_records history_rows tf.kickoff_dt tf.event).map (·.points)) 3 ∧
      (build_feature_row sqrtQ players team_fixtures horizon p tf history_rows).recent_points_avg_5
          = rolling_mean
            ((prior_records history_rows tf.kickoff_dt tf.event).map (·.points)) 5 ∧
      (build_feature_row sqrtQ players team_fixtures horizon p tf history_rows).recent_minutes_avg_3
          = rolling_mean
            ((prior_records history_rows tf.kickoff_dt tf.event).map (·.minutes)) 3 ∧
      (build_feature_row sqrtQ players team_fixtures horizon p tf history_rows).recent_minutes_avg_5
          = rolling_mean
            ((prior_records history_rows tf.kickoff_dt tf.event).map (·.minutes)) 5 ∧
      (build_feature_row sqrtQ players team_fixtures horizon p tf history_rows).recent_xgi_avg_3
          = rolling_mean
            ((prior_records history_rows tf.kickoff_dt tf.event).map (·.xgi)) 3 ∧
      (build_feature_row sqrtQ players team_fixtures horizon p tf history_rows).recent_xgi_avg_5
          = rolling_mean
            ((prior_records history_rows tf.kickoff_dt tf.event).map (·.xgi)) 5 ∧
      (build_feature_row sqrtQ players team_fixtures horizon p tf history_rows).last_price
          = (match (((prior_records history_rows tf.kickoff_dt tf.event).filter
                fun h => decide (0 < h.price)).map (·.price)).getLast? with
            | some x => x
            | none => as_float p.now_cost)) := by
  constructor
  · intro history_rows target_dt target_event rec hrec
    rw [prior_records, List.mem_filter] at hrec
    have hb := hrec.2
    constructor
    · intro m t hm ht
      rw [hm, ht] at hb
      simpa [is_prior_match] using hb
    · intro hnone
      rcases hnone with h | h
      · rw [h] at hb
        simpa [is_prior_match] using hb
      · rw [h] at hb
        cases hkd : rec.kickoff_dt with
        | none =>
          rw [hkd] at hb
          simpa [is_prior_match] using hb
        | some m =>
          rw [hkd] at hb
          simpa [is_prior_match] using hb
  · intro sqrtQ players team_fixtures horizon p tf history_rows
    exact ⟨rfl, rfl, rfl, rfl, rfl, rfl, rfl, rfl, rfl, rfl⟩

/-- Claim C1 witness: the cut evaluated on a two-record history against a
target with known kickoff 10 and event 3 — the timed record (kickoff 5) and
the round-only record (round 2) are both admitted and satisfy the respective
strict comparisons. -/
theorem prior_records_no_leakage_witness :
    hist_rec_timed ∈ prior_records [hist_rec_timed, hist_rec_roundonly] (some 10) 3 ∧
    hist_rec_roundonly ∈ prior_records [hist_rec_timed, hist_rec_roundonly] (some 10) 3 ∧
    (5 : ℤ) < 10 ∧ (2 : ℤ) < 3 := by
  have h1 : hist_rec_timed ∈
      prior_records [hist_rec_timed, hist_rec_roundonly] (some 10) 3 := by decide
  have h2 : hist_rec_roundonly ∈
      prior_records [hist_rec_timed, hist_rec_roundonly] (some 10) 3 := by decide
  refine ⟨h1, h2, ?_, ?_⟩
  · exact (prior_records_no_leakage.1 [hist_rec_timed, hist_rec_roundonly]
      (some 10) 3 hist_rec_timed h1).1 5 10 rfl rfl
  · exact (prior_records_no_leakage.1 [hist_rec_timed, hist_rec_roundonly]
      (some 10) 3 hist_rec_roundonly h2).2 (Or.inl rfl)

/-- Claim C8: every row emitted by `build_feature_table` has `is_dgw = 1` if
and only if its `dgw_count_in_event` is strictly greater than 1, and
`is_dgw = 0` otherwise. -/
theorem build_feature_table_is_dgw (sqrtQ : ℚ → ℚ) (players : List Player)
    (fixtures : List Fixture) (history : List GwPlayerStat) (horizon : ℤ)
    (include_finished : Bool) :
    ∀ r ∈ feature_rows_of
        (build_feature_table sqrtQ players fixtures history horizon include_finished),
      (r.is_dgw = 1 ↔ 1 < r.dgw_count_in_event) ∧
      (¬ 1 < r.dgw_count_in_event → r.is_dgw = 0) := by
  intro r hr
  rw [build_feature_table] at hr
  split at hr
  · simp [feature_rows_of] at hr
  · dsimp only at hr
    split at hr
    · simp [feature_rows_of] at hr
    · simp only [feature_rows_of] at hr
      rw [List.mem_insertionSort, List.mem_map] at hr
      obtain ⟨pt, _, rfl⟩ := hr
      simp only [build_feature_row]
      by_cases h : 1 < dgw_count_lookup (build_team_fixture_rows fixtures)
          pt.1.team_id pt.2.event
      · simp [h]
      · simp [h]

/-- Claim C8 witness: the invariant evaluated on the single row of a concrete
run (one player, one single-fixture event, so `dgw_count_in_event = 1` and
`is_dgw = 0`). -/
theorem build_feature_table_is_dgw_witness :
    feature_row_w.is_dgw = 0 ∧ ¬ 1 < feature_row_w.dgw_count_in_event := by
  have h2 : target_team_fixtures [fixture_w] false = [home_tf_w, away_tf_w] := by
    decide
  have h4 : (target_team_fixtures [fixture_w] false).filter
      (fun tf => tf.team_id == player_w.team_id) = [home_tf_w] := by decide
  have h3 : build_feature_table id [player_w] [fixture_w] [] 3 false =
      .ok [feature_row_w] := by
    rw [build_feature_table, if_neg (by simp)]
    dsimp only
    rw [if_neg (by rw [h2]; simp)]
    simp only [List.flatMap_cons, List.flatMap_nil, h4, List.map_cons,
      List.map_nil, List.append_nil]
    rfl
  have hmem : feature_row_w ∈
      feature_rows_of (build_feature_table id [player_w] [fixture_w] [] 3 false) := by
    rw [h3]
    simp [feature_rows_of]
  have h := build_feature_table_is_dgw id [player_w] [fixture_w] [] 3 false
    feature_row_w hmem
  exact ⟨h.2 (by decide), by decide⟩

/-- Claim C9: `build_feature_table` fails with the data-availability error when
the players or fixtures table is empty, and with the empty-target error when no
target fixture survives the future-fixture filter; in both cases the run aborts
with an error and emits no feature rows. -/
theorem build_feature_table_empty_error (sqrtQ : ℚ → ℚ) (players : List Player)
    (fixtures : List Fixture) (history : List GwPlayerStat) (horizon : ℤ)
    (include_finished : Bool) :
    ((players = [] ∨ fixtures = []) →
      build_feature_table sqrtQ players fixtures history horizon include_finished =
        .error "Missing source data in DB (players/fixtures)") ∧
    (players ≠ [] → fixtures ≠ [] →
      target_team_fixtures fixtures include_finished = [] →
      build_feature_table sqrtQ players fixtures history horizon include_finished =
        .error "No target fixtures found after filtering") := by
  constructor
  · intro h
    rw [build_feature_table, if_pos h]
  · intro h1 h2 h3
    rw [build_feature_table, if_neg (by tauto)]
    dsimp only
    rw [if_pos h3]

/-- Claim C9 witness: the two fatal branches evaluated on concrete inputs —
an empty players table, and a run whose only fixture is already finished. -/
theorem build_feature_table_empty_error_witness :
    build_feature_table id [] [fixture_w] [] 3 false =
      .error "Missing source data in DB (players/fixtures)" ∧
    build_feature_table id [player_w] [fixture_finished_w] [] 3 false =
      .error "No target fixtures found after filtering" :=
  ⟨(build_feature_table_empty_error id [] [fixture_w] [] 3 false).1 (Or.inl rfl),
   (build_feature_table_empty_error id [player_w] [fixture_finished_w] [] 3
      false).2 (by decide) (by decide) (by decide)⟩

end FPL
